import Mathlib

/-!
# Verification development for the kosen verify bot (src/main.go)

Shallow embedding of the verification workflow of `src/main.go`:
the in-memory code store (`verificationCodes : map[string]string`),
the domain validator `isValidKosenEmail`, the code generator
`generateVerificationCode`, and the two interaction handlers
`handleVerify` (Start) and `handleCode` (Confirm).

External calls (mail relay, role grant, channel deletion) are modelled
by boolean outcome parameters and an explicit effect trace; the random
source is modelled by an optional 4-byte input, matching the
`rand.Read` of a 4-byte buffer in the source.
-/

set_option maxRecDepth 8192

namespace KosenVerify

/-- The in-memory verification store `verificationCodes`:
a Go map from user ID to pending 6-digit code, modelled as a
partial function. -/
def Store : Type := String → Option String

/-- Outward calls a handler performs, in order: an attempted
verification-mail submission (`sendVerificationEmail`), an attempted
role grant (`s.GuildMemberRoleAdd`), an attempted channel deletion
(`s.ChannelDelete`), and (in the spec-modelled role-map variant) a log
line for a failed secondary grant. -/
inductive Effect : Type
  | emailSend (recipient code : String)
  | roleGrant (userID roleID : String)
  | channelDelete
  | logMappedGrantFailed
  deriving DecidableEq, Repr

/-- The ephemeral response a handler sends, one constructor per
`respondEphemeral` call site of the source. -/
inductive Response : Type
  | invalidEmail
  | internalError
  | emailSendFailed
  | codeSent
  | wrongCode
  | roleAddFailed
  | verified
  deriving DecidableEq, Repr

/-- Result of one handler invocation: the updated store, the trace of
outward calls, and the ephemeral response. -/
structure StepResult : Type where
  store : Store
  effects : List Effect
  response : Response

/-- Go `strings.Split(s, sep)` for a one-character separator, on the
character list of the string: splits at every occurrence of `sep`,
keeping empty fields, and returns `[s]` when `sep` does not occur. -/
def splitOnChar (sep : Char) : List Char → List (List Char)
  | [] => [[]]
  | c :: cs =>
    let r := splitOnChar sep cs
    if c = sep then [] :: r
    else
      match r with
      | [] => [[c]]
      | f :: rest => (c :: f) :: rest

/-- `isValidKosenEmail` of the source: the domain passes iff it equals
`kosen-ac.jp` or has suffix `.kosen-ac.jp` (Go `strings.HasSuffix`). -/
def isValidKosenEmail (domain : List Char) : Bool :=
  domain = "kosen-ac.jp".data || List.isSuffixOf ".kosen-ac.jp".data domain

/-- Go `fmt.Sprintf` verb `d` on a natural number: its decimal digit
characters, most significant first (`0` prints as `"0"`). -/
def goFormatD (n : Nat) : List Char :=
  if n = 0 then ['0'] else ((Nat.digits 10 n).reverse).map Nat.digitChar

/-- Go `fmt.Sprintf` verb `06d`: the decimal form, left-padded with
zeros to at least six characters. -/
def goFormat06d (n : Nat) : List Char :=
  let s := goFormatD n
  if s.length < 6 then List.replicate (6 - s.length) '0' ++ s else s

/-- `generateVerificationCode` of the source, given the four bytes the
`rand.Read` call produced: compose
`int(b[0])<<24 | int(b[1])<<16 | int(b[2])<<8 | int(b[3])` (a 64-bit
`int`, so the composed value, below `2^32`, is non-negative), format
with `%06d`, and keep the first six characters (`[:6]`). -/
def generateVerificationCode (b0 b1 b2 b3 : Nat) : String :=
  String.mk ((goFormat06d ((b0 <<< 24) ||| (b1 <<< 16) ||| (b2 <<< 8) ||| b3)).take 6)

/-- `handleVerify` of the source (the Start step). `entropy` is the
outcome of `rand.Read` (`none` = read error), `emailSendOk` the outcome
of `sendVerificationEmail`. Splits the email on `@`, requires exactly
two parts with a valid domain, generates and stores the code
(unconditional overwrite), then attempts the mail. -/
def handleVerify (st : Store) (userID : String) (email : String)
    (entropy : Option (Nat × Nat × Nat × Nat)) (emailSendOk : Bool) : StepResult :=
  let domainParts := splitOnChar '@' email.data
  if domainParts.length ≠ 2 || !isValidKosenEmail (domainParts.getD 1 []) then
    { store := st, effects := [], response := .invalidEmail }
  else
    match entropy with
    | none => { store := st, effects := [], response := .internalError }
    | some (b0, b1, b2, b3) =>
      let code := generateVerificationCode b0 b1 b2 b3
      let st1 : Store := fun k => if k = userID then some code else st k
      if emailSendOk then
        { store := st1, effects := [.emailSend email code], response := .codeSent }
      else
        { store := st1, effects := [.emailSend email code], response := .emailSendFailed }

/-- `handleCode` of the source (the Confirm step). `roleAddOk` is the
outcome of `s.GuildMemberRoleAdd`. Looks up the stored code for the
user; on absence or mismatch responds with an error and changes
nothing; on match attempts the base-role grant, and only on grant
success deletes the record (then deletes the channel). -/
def handleCode (st : Store) (userID : String) (userCode : String)
    (roleAddOk : Bool) (verifiedRoleID : String) : StepResult :=
  match st userID with
  | none => { store := st, effects := [], response := .wrongCode }
  | some correctCode =>
    if userCode ≠ correctCode then
      { store := st, effects := [], response := .wrongCode }
    else if !roleAddOk then
      { store := st, effects := [.roleGrant userID verifiedRoleID], response := .roleAddFailed }
    else
      { store := fun k => if k = userID then none else st k,
        effects := [.roleGrant userID verifiedRoleID, .channelDelete],
        response := .verified }

/-- The validation applied by `handleVerify` before anything else
happens: splitting on `@` must yield exactly two parts and the second
part must pass `isValidKosenEmail`. A pure Boolean function — no side
effects by construction. -/
def emailPassesValidation (email : String) : Bool :=
  let domainParts := splitOnChar '@' email.data
  (domainParts.length == 2) && isValidKosenEmail (domainParts.getD 1 [])

/-- Recognizes an attempted base-role grant call for the given subject. -/
def Effect.isRoleGrantFor (u : String) : Effect → Bool
  | .roleGrant u' _ => u' = u
  | _ => false

/-- The number of 4-byte inputs (each byte below 256) that the
compose–format–truncate mapping of `generateVerificationCode` sends to
the output string `s`. -/
def preimageCount (s : String) : Nat :=
  ((Finset.range 256 ×ˢ Finset.range 256 ×ˢ Finset.range 256 ×ˢ Finset.range 256).filter
    (fun q => generateVerificationCode q.1 q.2.1 q.2.2.1 q.2.2.2 = s)).card

/-! ## Spec-modelled role-mapping variant

The specification (§3 `DomainRoleMap`, §4.5–4.6, §8) describes a
repository variant in which a per-domain role mapping is loaded from
configuration and a mapped role is granted after the base role. None
of the source files under src/ contains that variant — they grant only
the base role — so the definitions below model it from the spec. -/

/-- Pending record of the spec's data model (§3): the issued credential
and the claimed email, keyed by subject ID in the store. -/
structure PendingVerification : Type where
  credential : String
  claimedEmail : String
  deriving DecidableEq, Repr

/-- Store of the spec's data model: subject ID to pending record. -/
def RecordStore : Type := String → Option PendingVerification

/-- Result of one spec-modelled Confirm invocation. -/
structure RecStepResult : Type where
  store : RecordStore
  effects : List Effect
  response : Response

/-- The domain part of an email: the second field of the split on `@`
(empty when the split does not have two fields). -/
def emailDomain (email : String) : String :=
  String.mk ((splitOnChar '@' email.data).getD 1 [])

/-- Modelled from the spec: the per-domain role-mapping Confirm step
(`DomainRoleMap`, spec §4.5–4.6) is missing from the sources under
src/, which grant only the base role. Following the spec's words: on a
matching Confirm the base role is granted (mandatory — failure aborts
and leaves the record Pending); then, if the claimed email's domain has
an entry in the domain-to-role mapping, the mapped role is granted as a
best-effort secondary step whose failure is only logged; the record is
cleared and success reported regardless of the secondary outcome. -/
def handleCodeWithRoleMap (st : RecordStore) (userID userCode : String)
    (domainRoleMap : List (String × String)) (baseRoleID : String)
    (baseOk mappedOk : Bool) : RecStepResult :=
  match st userID with
  | none => { store := st, effects := [], response := .wrongCode }
  | some pv =>
    if userCode ≠ pv.credential then
      { store := st, effects := [], response := .wrongCode }
    else if !baseOk then
      { store := st, effects := [.roleGrant userID baseRoleID], response := .roleAddFailed }
    else
      let cleared : RecordStore := fun k => if k = userID then none else st k
      match domainRoleMap.lookup (emailDomain pv.claimedEmail) with
      | some mappedRole =>
        { store := cleared,
          effects := [.roleGrant userID baseRoleID, .roleGrant userID mappedRole] ++
            (if mappedOk then [] else [.logMappedGrantFailed]),
          response := .verified }
      | none =>
        { store := cleared, effects := [.roleGrant userID baseRoleID], response := .verified }

/-! ## Arithmetic facts about the byte composition -/

/-- Composing four bytes with shifts and bitwise or equals the
base-256 positional sum. -/
theorem compose_eq_sum {b0 b1 b2 b3 : Nat}
    (h0 : b0 < 256) (h1 : b1 < 256) (h2 : b2 < 256) (h3 : b3 < 256) :
    (b0 <<< 24) ||| (b1 <<< 16) ||| (b2 <<< 8) ||| b3
      = b0 * 2 ^ 24 + b1 * 2 ^ 16 + b2 * 2 ^ 8 + b3 := by
  have e3 : b2 <<< 8 ||| b3 = 2 ^ 8 * b2 + b3 := by
    rw [Nat.shiftLeft_eq, Nat.mul_comm]
    exact (Nat.mul_add_lt_is_or (by omega) b2).symm
  have e2 : b1 <<< 16 ||| (2 ^ 8 * b2 + b3) = 2 ^ 16 * b1 + (2 ^ 8 * b2 + b3) := by
    rw [Nat.shiftLeft_eq, Nat.mul_comm]
    exact (Nat.mul_add_lt_is_or (by omega) b1).symm
  have e1 : b0 <<< 24 ||| (2 ^ 16 * b1 + (2 ^ 8 * b2 + b3))
      = 2 ^ 24 * b0 + (2 ^ 16 * b1 + (2 ^ 8 * b2 + b3)) := by
    rw [Nat.shiftLeft_eq, Nat.mul_comm]
    exact (Nat.mul_add_lt_is_or (by omega) b0).symm
  rw [Nat.or_assoc, Nat.or_assoc, e3, e2, e1]
  ring

/-! ## The generated code is always six decimal digits -/

/-- A digit character of a digit below ten is a decimal digit. -/
theorem digitChar_isDigit : ∀ d : Nat, d < 10 → (Nat.digitChar d).isDigit = true := by
  decide

/-- Among digits below ten, only `0` prints as the character `0`. -/
theorem digitChar_eq_zero_iff : ∀ d : Nat, d < 10 → (Nat.digitChar d = '0' ↔ d = 0) := by
  decide

/-- Every character produced by the `%d` formatting is a decimal digit. -/
theorem goFormatD_isDigit {n : Nat} : ∀ c ∈ goFormatD n, c.isDigit = true := by
  intro c hc
  unfold goFormatD at hc
  split at hc
  · simp only [List.mem_singleton] at hc
    subst hc
    decide
  · simp only [List.mem_map, List.mem_reverse] at hc
    obtain ⟨d, hd, rfl⟩ := hc
    exact digitChar_isDigit d (Nat.digits_lt_base (by norm_num) hd)

/-- Every character produced by the `%06d` formatting is a decimal digit. -/
theorem goFormat06d_isDigit {n : Nat} : ∀ c ∈ goFormat06d n, c.isDigit = true := by
  intro c hc
  unfold goFormat06d at hc
  simp only at hc
  split at hc
  · rcases List.mem_append.mp hc with h | h
    · rw [List.eq_of_mem_replicate h]
      decide
    · exact goFormatD_isDigit c h
  · exact goFormatD_isDigit c hc

/-- The `%06d` formatting never produces fewer than six characters. -/
theorem goFormat06d_length {n : Nat} : 6 ≤ (goFormat06d n).length := by
  unfold goFormat06d
  simp only
  split
  · simp only [List.length_append, List.length_replicate]
    omega
  · omega

/-- C5: for every 4-byte value read from the entropy source, the code
generator — compose the bytes into an integer, format with `%06d`,
keep the first six characters — returns a string of exactly six
decimal digit characters (the language `^\d{6}$`). -/
theorem generateVerificationCode_six_digits (b0 b1 b2 b3 : Nat)
    (h0 : b0 < 256) (h1 : b1 < 256) (h2 : b2 < 256) (h3 : b3 < 256) :
    (generateVerificationCode b0 b1 b2 b3).length = 6 ∧
      ∀ c ∈ (generateVerificationCode b0 b1 b2 b3).data, c.isDigit = true := by
  unfold generateVerificationCode
  constructor
  · show ((goFormat06d _).take 6).length = 6
    rw [List.length_take]
    have := goFormat06d_length (n := (b0 <<< 24) ||| (b1 <<< 16) ||| (b2 <<< 8) ||| b3)
    omega
  · intro c hc
    exact goFormat06d_isDigit c (List.mem_of_mem_take hc)

/-- The C5 theorem instantiated at the concrete byte tuple
`(12, 34, 56, 78)`. -/
theorem generateVerificationCode_six_digits_witness :
    (generateVerificationCode 12 34 56 78).length = 6 :=
  (generateVerificationCode_six_digits 12 34 56 78
    (by decide) (by decide) (by decide) (by decide)).1

/-! ## Non-uniformity of the code distribution -/

/-- Only `0` formats and truncates to the all-zero code: for any
nonzero value the leading decimal digit is nonzero and survives both
the padding and the truncation. -/
theorem format_take_eq_zeros {n : Nat}
    (h : String.mk ((goFormat06d n).take 6) = "000000") : n = 0 := by
  by_contra hn
  have hL : Nat.digits 10 n ≠ [] := Nat.digits_ne_nil_iff_ne_zero.mpr hn
  obtain ⟨d, t, hrev⟩ : ∃ d t, (Nat.digits 10 n).reverse = d :: t := by
    cases hrev : (Nat.digits 10 n).reverse with
    | nil =>
      exact absurd (by simpa using congrArg List.reverse hrev) hL
    | cons d t => exact ⟨d, t, rfl⟩
  have hdlast : (Nat.digits 10 n).getLast? = some d := by
    rw [← List.head?_reverse, hrev]
    rfl
  have hdne : d ≠ 0 := by
    have h1 := Nat.getLast_digit_ne_zero 10 hn
    rw [List.getLast?_eq_getLast _ hL] at hdlast
    injection hdlast with h2
    rw [← h2]
    exact h1
  have hdmem : d ∈ Nat.digits 10 n := by
    have : d ∈ (Nat.digits 10 n).reverse := by
      rw [hrev]
      exact List.mem_cons_self _ _
    exact List.mem_reverse.mp this
  have hd10 : d < 10 := Nat.digits_lt_base (by norm_num) hdmem
  have hFD : goFormatD n = Nat.digitChar d :: t.map Nat.digitChar := by
    unfold goFormatD
    rw [if_neg hn, hrev, List.map_cons]
  have hdata : ((goFormat06d n).take 6) = "000000".data := by
    have h2 := congrArg String.data h
    simpa using h2
  unfold goFormat06d at hdata
  simp only [hFD] at hdata
  by_cases hlen : (Nat.digitChar d :: t.map Nat.digitChar).length < 6
  · rw [if_pos hlen] at hdata
    have hlen6 :
        (List.replicate (6 - (Nat.digitChar d :: t.map Nat.digitChar).length) '0' ++
          (Nat.digitChar d :: t.map Nat.digitChar)).length = 6 := by
      simp only [List.length_append, List.length_replicate]
      omega
    rw [List.take_of_length_le (le_of_eq hlen6)] at hdata
    have hmem : Nat.digitChar d ∈ (['0', '0', '0', '0', '0', '0'] : List Char) := by
      rw [← hdata]
      exact List.mem_append_right _ (List.mem_cons_self _ _)
    have hzero : Nat.digitChar d = '0' := by
      simpa using hmem
    exact hdne ((digitChar_eq_zero_iff d hd10).mp hzero)
  · rw [if_neg hlen] at hdata
    rw [show (6 : Nat) = 5 + 1 from rfl, List.take_succ_cons] at hdata
    injection hdata with hhead _
    exact hdne ((digitChar_eq_zero_iff d hd10).mp hhead)

/-- Exactly one byte tuple maps to `"000000"`, namely `(0,0,0,0)`. -/
theorem preimageCount_zeros : preimageCount "000000" = 1 := by
  unfold preimageCount
  apply Finset.card_eq_one.mpr
  refine ⟨((0 : Nat), (0 : Nat), (0 : Nat), (0 : Nat)), ?_⟩
  apply Finset.ext
  intro q
  obtain ⟨b0, b1, b2, b3⟩ := q
  simp only [Finset.mem_filter, Finset.mem_product, Finset.mem_range, Finset.mem_singleton,
    Prod.mk.injEq]
  constructor
  · rintro ⟨⟨hb0, hb1, hb2, hb3⟩, hgen⟩
    unfold generateVerificationCode at hgen
    rw [compose_eq_sum hb0 hb1 hb2 hb3] at hgen
    have h0 := format_take_eq_zeros hgen
    refine ⟨by omega, by omega, by omega, by omega⟩
  · rintro ⟨rfl, rfl, rfl, rfl⟩
    refine ⟨⟨by norm_num, by norm_num, by norm_num, by norm_num⟩, by decide⟩

/-- At least two byte tuples map to `"100000"`: the tuples composing
to `100000` and to `1000000`. -/
theorem two_le_preimageCount_100000 : 2 ≤ preimageCount "100000" := by
  unfold preimageCount
  have h1 : ((0 : Nat), (1 : Nat), (134 : Nat), (160 : Nat)) ∈
      (Finset.range 256 ×ˢ Finset.range 256 ×ˢ Finset.range 256 ×ˢ Finset.range 256).filter
        (fun q => generateVerificationCode q.1 q.2.1 q.2.2.1 q.2.2.2 = "100000") := by
    simp only [Finset.mem_filter, Finset.mem_product, Finset.mem_range]
    refine ⟨⟨by norm_num, by norm_num, by norm_num, by norm_num⟩, ?_⟩
    show generateVerificationCode 0 1 134 160 = "100000"
    simp [generateVerificationCode, goFormat06d, goFormatD, Nat.digitChar]
  have h2 : ((0 : Nat), (15 : Nat), (66 : Nat), (64 : Nat)) ∈
      (Finset.range 256 ×ˢ Finset.range 256 ×ˢ Finset.range 256 ×ˢ Finset.range 256).filter
        (fun q => generateVerificationCode q.1 q.2.1 q.2.2.1 q.2.2.2 = "100000") := by
    simp only [Finset.mem_filter, Finset.mem_product, Finset.mem_range]
    refine ⟨⟨by norm_num, by norm_num, by norm_num, by norm_num⟩, ?_⟩
    show generateVerificationCode 0 15 66 64 = "100000"
    simp [generateVerificationCode, goFormat06d, goFormatD, Nat.digitChar]
  have hsub : ({((0 : Nat), (1 : Nat), (134 : Nat), (160 : Nat)),
      ((0 : Nat), (15 : Nat), (66 : Nat), (64 : Nat))} :
        Finset (Nat × Nat × Nat × Nat)) ⊆
      (Finset.range 256 ×ˢ Finset.range 256 ×ˢ Finset.range 256 ×ˢ Finset.range 256).filter
        (fun q => generateVerificationCode q.1 q.2.1 q.2.2.1 q.2.2.2 = "100000") :=
    Finset.insert_subset_iff.mpr ⟨h1, Finset.singleton_subset_iff.mpr h2⟩
  have hcard : ({((0 : Nat), (1 : Nat), (134 : Nat), (160 : Nat)),
      ((0 : Nat), (15 : Nat), (66 : Nat), (64 : Nat))} :
        Finset (Nat × Nat × Nat × Nat)).card = 2 := by decide
  calc 2 = _ := hcard.symm
    _ ≤ _ := Finset.card_le_card hsub

/-- C6: the output distribution of the code generator is not uniform:
the outputs `"000000"` and `"100000"` have different numbers of 4-byte
preimages under the compose–format–truncate mapping. -/
theorem generateVerificationCode_not_uniform :
    preimageCount "000000" ≠ preimageCount "100000" := by
  have h1 := preimageCount_zeros
  have h2 := two_le_preimageCount_100000
  omega

/-! ## Characterization of the split on the separator -/

theorem splitOnChar_ne_nil (sep : Char) (l : List Char) : splitOnChar sep l ≠ [] := by
  cases l with
  | nil => simp [splitOnChar]
  | cons c cs =>
    unfold splitOnChar
    simp only
    split
    · simp
    · split <;> simp

theorem splitOnChar_eq_singleton {sep : Char} {l m : List Char} :
    splitOnChar sep l = [m] ↔ l = m ∧ sep ∉ m := by
  induction l generalizing m with
  | nil =>
    constructor
    · intro h
      simp [splitOnChar] at h
      subst h
      simp
    · rintro ⟨rfl, _⟩
      simp [splitOnChar]
  | cons c cs ih =>
    unfold splitOnChar
    simp only
    by_cases hc : c = sep
    · rw [if_pos hc]
      constructor
      · intro h
        injection h with h1 h2
        exact absurd h2 (splitOnChar_ne_nil _ _)
      · rintro ⟨rfl, hmem⟩
        exact absurd (hc ▸ List.mem_cons_self c cs) hmem
    · rw [if_neg hc]
      cases hr : splitOnChar sep cs with
      | nil => exact absurd hr (splitOnChar_ne_nil _ _)
      | cons f rest =>
        constructor
        · intro h
          injection h with h1 h2
          subst h2
          obtain ⟨rfl, hf⟩ := ih.mp hr
          refine ⟨h1.symm ▸ rfl, ?_⟩
          rw [← h1]
          simp only [List.mem_cons]
          rintro (h | h)
          · exact hc h.symm
          · exact hf h
        · rintro ⟨rfl, hmem⟩
          have hcs : sep ∉ cs := fun h => hmem (List.mem_cons_of_mem _ h)
          have hsing : splitOnChar sep cs = [cs] := ih.mpr ⟨rfl, hcs⟩
          rw [hr] at hsing
          injection hsing with e1 e2
          rw [e1, e2]

theorem splitOnChar_eq_pair {sep : Char} {l a b : List Char} :
    splitOnChar sep l = [a, b] ↔ l = a ++ sep :: b ∧ sep ∉ a ∧ sep ∉ b := by
  induction l generalizing a with
  | nil =>
    constructor
    · intro h
      simp [splitOnChar] at h
    · rintro ⟨h, _, _⟩
      exact absurd h (by simp)
  | cons c cs ih =>
    unfold splitOnChar
    simp only
    by_cases hc : c = sep
    · rw [if_pos hc]
      constructor
      · intro h
        injection h with h1 h2
        subst h1
        obtain ⟨rfl, hb⟩ := splitOnChar_eq_singleton.mp h2
        exact ⟨by simp [hc], by simp, hb⟩
      · rintro ⟨heq, ha, hb⟩
        cases a with
        | nil =>
          simp only [List.nil_append] at heq
          injection heq with e1 e2
          subst e2
          simp only [List.cons.injEq, true_and]
          exact splitOnChar_eq_singleton.mpr ⟨rfl, hb⟩
        | cons x a' =>
          injection heq with e1 e2
          refine absurd ?_ ha
          rw [← e1, ← hc]
          exact List.mem_cons_self _ _
    · rw [if_neg hc]
      cases hr : splitOnChar sep cs with
      | nil => exact absurd hr (splitOnChar_ne_nil _ _)
      | cons f rest =>
        constructor
        · intro h
          injection h with h1 h2
          subst h2
          have hpair : splitOnChar sep cs = [f, b] := hr
          obtain ⟨rfl, hf, hb⟩ := ih.mp hpair
          refine ⟨by simp [← h1], ?_, hb⟩
          rw [← h1]
          simp only [List.mem_cons]
          rintro (h | h)
          · exact hc h.symm
          · exact hf h
        · rintro ⟨heq, ha, hb⟩
          cases a with
          | nil =>
            simp only [List.nil_append] at heq
            injection heq with e1 _
            exact absurd e1 hc
          | cons x a' =>
            injection heq with e1 e2
            subst e1
            have ha' : sep ∉ a' := fun h => ha (List.mem_cons_of_mem _ h)
            have hpair : splitOnChar sep cs = [a', b] := ih.mpr ⟨e2, ha', hb⟩
            rw [hr] at hpair
            injection hpair with g1 g2
            rw [g1, g2]

/-! ## Reduction lemmas for the handlers -/

/-- `handleVerify` on a well-formed email with a valid domain and
available entropy: the code is stored for the invoking user and the
mail is attempted; only the response depends on the mail outcome. -/
theorem handleVerify_valid (st : Store) (u email : String) {l d : List Char}
    (b0 b1 b2 b3 : Nat) (eok : Bool)
    (hsplit : splitOnChar '@' email.data = [l, d])
    (hdom : isValidKosenEmail d = true) :
    handleVerify st u email (some (b0, b1, b2, b3)) eok =
      { store := fun k => if k = u then some (generateVerificationCode b0 b1 b2 b3) else st k,
        effects := [.emailSend email (generateVerificationCode b0 b1 b2 b3)],
        response := if eok then .codeSent else .emailSendFailed } := by
  unfold handleVerify
  rw [hsplit]
  cases eok <;> simp [hdom]

/-- `handleCode` when no record is stored for the user. -/
theorem handleCode_none {st : Store} {u : String} (c roleID : String) (rok : Bool)
    (h : st u = none) :
    handleCode st u c rok roleID = { store := st, effects := [], response := .wrongCode } := by
  unfold handleCode
  rw [h]

/-- `handleCode` when the submitted code differs from the stored one. -/
theorem handleCode_mismatch {st : Store} {u c0 : String} (c roleID : String) (rok : Bool)
    (h : st u = some c0) (hne : c ≠ c0) :
    handleCode st u c rok roleID = { store := st, effects := [], response := .wrongCode } := by
  unfold handleCode
  rw [h]
  simp [hne]

/-- `handleCode` when the submitted code matches the stored one: the
grant is attempted; the record is deleted only if the grant succeeds. -/
theorem handleCode_match {st : Store} {u c : String} (roleID : String) (rok : Bool)
    (h : st u = some c) :
    handleCode st u c rok roleID =
      if rok then
        { store := fun k => if k = u then none else st k,
          effects := [.roleGrant u roleID, .channelDelete], response := .verified }
      else
        { store := st, effects := [.roleGrant u roleID], response := .roleAddFailed } := by
  unfold handleCode
  rw [h]
  cases rok <;> simp

/-! ## Claim theorems for the verification workflow -/

/-- C1: for every subject and email whose domain passes validation, a
successful Start (entropy available, mail sent) followed immediately by
a Confirm submitting exactly the issued credential deletes the
subject's pending record (state NoRecord) and the combined run performs
exactly one base-role grant call for that subject. -/
theorem start_confirm_success (st : Store) (u email roleID : String) (l d : List Char)
    (b0 b1 b2 b3 : Nat)
    (hsplit : splitOnChar '@' email.data = [l, d])
    (hdom : isValidKosenEmail d = true) :
    (handleCode (handleVerify st u email (some (b0, b1, b2, b3)) true).store u
        (generateVerificationCode b0 b1 b2 b3) true roleID).store u = none ∧
      (((handleVerify st u email (some (b0, b1, b2, b3)) true).effects ++
          (handleCode (handleVerify st u email (some (b0, b1, b2, b3)) true).store u
            (generateVerificationCode b0 b1 b2 b3) true roleID).effects).filter
          (Effect.isRoleGrantFor u)).length = 1 := by
  rw [handleVerify_valid st u email b0 b1 b2 b3 true hsplit hdom]
  have hhit : (fun k =>
      if k = u then some (generateVerificationCode b0 b1 b2 b3) else st k) u
        = some (generateVerificationCode b0 b1 b2 b3) := by simp
  rw [handleCode_match roleID true hhit]
  simp [Effect.isRoleGrantFor]

/-- The C1 theorem at a concrete input: empty store, subject `u1`,
email `a@kosen-ac.jp`, bytes `(12, 34, 56, 78)`. -/
theorem start_confirm_success_witness :
    (handleCode (handleVerify (fun _ => none) "u1" "a@kosen-ac.jp"
        (some (12, 34, 56, 78)) true).store "u1"
        (generateVerificationCode 12 34 56 78) true "role1").store "u1" = none :=
  (start_confirm_success (fun _ => none) "u1" "a@kosen-ac.jp" "role1"
    "a".data "kosen-ac.jp".data 12 34 56 78 (by decide) (by decide)).1

/-- C3: a Confirm with no pending record, or whose submitted code is
not exactly the stored credential, responds with an error and returns
the store untouched, so a retry with the correct original code still
succeeds. -/
theorem confirm_rejects_missing_or_wrong (st : Store) (u c roleID : String) (rok : Bool) :
    (st u = none →
      handleCode st u c rok roleID =
        { store := st, effects := [], response := .wrongCode }) ∧
      (∀ c0, st u = some c0 → c ≠ c0 →
        handleCode st u c rok roleID =
          { store := st, effects := [], response := .wrongCode } ∧
          (handleCode st u c0 true roleID).response = .verified) := by
  constructor
  · intro h
    exact handleCode_none c roleID rok h
  · intro c0 h hne
    refine ⟨handleCode_mismatch c roleID rok h hne, ?_⟩
    rw [handleCode_match roleID true h]
    simp

/-- The C3 theorem at a concrete input: store holding `123456` for
`u1`, wrong submission `999999`, then the correct retry. -/
theorem confirm_rejects_missing_or_wrong_witness :
    handleCode (fun k => if k = "u1" then some "123456" else none) "u1" "999999"
        true "role1" =
      { store := fun k => if k = "u1" then some "123456" else none,
        effects := [], response := .wrongCode } ∧
      (handleCode (fun k => if k = "u1" then some "123456" else none) "u1" "123456"
          true "role1").response = .verified :=
  (confirm_rejects_missing_or_wrong
      (fun k => if k = "u1" then some "123456" else none) "u1" "999999" "role1"
      true).2 "123456" (by simp) (by decide)

/-- C7: when a pending record matches the submitted code but the base
role grant fails, Confirm reports the failure and the store — in
particular the subject's record — is unchanged (still Pending). -/
theorem confirm_role_failure_keeps_record (st : Store) (u c roleID : String)
    (h : st u = some c) :
    handleCode st u c false roleID =
      { store := st, effects := [.roleGrant u roleID], response := .roleAddFailed } ∧
      (handleCode st u c false roleID).store u = some c := by
  have hm := handleCode_match roleID false h
  simp only [Bool.false_eq_true, if_false] at hm
  refine ⟨hm, ?_⟩
  rw [hm]
  exact h

/-- The C7 theorem at a concrete input. -/
theorem confirm_role_failure_keeps_record_witness :
    (handleCode (fun k => if k = "u1" then some "123456" else none) "u1" "123456"
        false "role1").store "u1" = some "123456" :=
  (confirm_role_failure_keeps_record
      (fun k => if k = "u1" then some "123456" else none) "u1" "123456" "role1"
      (by simp)).2

/-- C8: Start on an email whose domain fails validation responds with
an error, leaves the store untouched, and performs no outward call —
in particular no notification. -/
theorem start_rejects_invalid_domain (st : Store) (u email : String) (l d : List Char)
    (entropy : Option (Nat × Nat × Nat × Nat)) (eok : Bool)
    (hsplit : splitOnChar '@' email.data = [l, d])
    (hdom : isValidKosenEmail d = false) :
    handleVerify st u email entropy eok =
      { store := st, effects := [], response := .invalidEmail } := by
  unfold handleVerify
  rw [hsplit]
  simp [hdom]

/-- The C8 theorem at a concrete input: `user@example.com`. -/
theorem start_rejects_invalid_domain_witness :
    handleVerify (fun _ => none) "u1" "user@example.com" (some (1, 2, 3, 4)) true =
      { store := fun _ => none, effects := [], response := .invalidEmail } :=
  start_rejects_invalid_domain (fun _ => none) "u1" "user@example.com"
    "user".data "example.com".data (some (1, 2, 3, 4)) true (by decide) (by decide)

/-- C9: after two successful Start calls the store holds only the
second credential: a Confirm with the second credential succeeds, and
one with the first fails (when the credentials differ), because the
store write replaces any existing record unconditionally. -/
theorem second_start_overwrites (st : Store) (u e1 e2 roleID : String)
    (l1 d1 l2 d2 : List Char) (a0 a1 a2 a3 b0 b1 b2 b3 : Nat)
    (hs1 : splitOnChar '@' e1.data = [l1, d1]) (hd1 : isValidKosenEmail d1 = true)
    (hs2 : splitOnChar '@' e2.data = [l2, d2]) (hd2 : isValidKosenEmail d2 = true) :
    (handleVerify (handleVerify st u e1 (some (a0, a1, a2, a3)) true).store u e2
        (some (b0, b1, b2, b3)) true).store u
      = some (generateVerificationCode b0 b1 b2 b3) ∧
      (handleCode (handleVerify (handleVerify st u e1 (some (a0, a1, a2, a3)) true).store
          u e2 (some (b0, b1, b2, b3)) true).store u
        (generateVerificationCode b0 b1 b2 b3) true roleID).response = .verified ∧
      (generateVerificationCode a0 a1 a2 a3 ≠ generateVerificationCode b0 b1 b2 b3 →
        (handleCode (handleVerify (handleVerify st u e1 (some (a0, a1, a2, a3)) true).store
            u e2 (some (b0, b1, b2, b3)) true).store u
          (generateVerificationCode a0 a1 a2 a3) true roleID).response = .wrongCode) := by
  rw [handleVerify_valid st u e1 a0 a1 a2 a3 true hs1 hd1]
  rw [handleVerify_valid _ u e2 b0 b1 b2 b3 true hs2 hd2]
  have hhit : (fun k =>
      if k = u then some (generateVerificationCode b0 b1 b2 b3)
      else if k = u then some (generateVerificationCode a0 a1 a2 a3) else st k) u
        = some (generateVerificationCode b0 b1 b2 b3) := by simp
  refine ⟨hhit, ?_, ?_⟩
  · rw [handleCode_match roleID true hhit]
    simp
  · intro hne
    rw [handleCode_mismatch _ roleID true hhit hne]

/-- The C9 theorem at a concrete input: first credential from bytes
`(0,0,0,0)` (code `000000`), second from `(0,1,134,160)` (code
`100000`). -/
theorem second_start_overwrites_witness :
    (handleCode (handleVerify (handleVerify (fun _ => none) "u1" "a@kosen-ac.jp"
          (some (0, 0, 0, 0)) true).store "u1" "b@kosen-ac.jp"
          (some (0, 1, 134, 160)) true).store "u1"
        (generateVerificationCode 0 1 134 160) true "role1").response = .verified ∧
      (handleCode (handleVerify (handleVerify (fun _ => none) "u1" "a@kosen-ac.jp"
            (some (0, 0, 0, 0)) true).store "u1" "b@kosen-ac.jp"
            (some (0, 1, 134, 160)) true).store "u1"
          (generateVerificationCode 0 0 0 0) true "role1").response = .wrongCode := by
  have h := second_start_overwrites (fun _ => none) "u1" "a@kosen-ac.jp" "b@kosen-ac.jp"
    "role1" "a".data "kosen-ac.jp".data "b".data "kosen-ac.jp".data 0 0 0 0 0 1 134 160
    (by decide) (by decide) (by decide) (by decide)
  refine ⟨h.2.1, h.2.2 ?_⟩
  have e1 : generateVerificationCode 0 0 0 0 = "000000" := by decide
  have e2 : generateVerificationCode 0 1 134 160 = "100000" := by
    simp [generateVerificationCode, goFormat06d, goFormatD, Nat.digitChar]
  rw [e1, e2]
  decide

/-- C10: each handler reads or writes only the invoking user's map
entry — the store entry of any other subject is unchanged by both
Start and Confirm. -/
theorem handlers_touch_only_invoker (st : Store) (u v email c roleID : String)
    (entropy : Option (Nat × Nat × Nat × Nat)) (eok rok : Bool) (hne : v ≠ u) :
    (handleVerify st u email entropy eok).store v = st v ∧
      (handleCode st u c rok roleID).store v = st v := by
  constructor
  · unfold handleVerify
    rcases entropy with _ | ⟨b0, b1, b2, b3⟩ <;> dsimp only
    · split <;> rfl
    · split
      · rfl
      · cases eok <;> simp [hne]
  · unfold handleCode
    split
    · rfl
    · split
      · rfl
      · split
        · rfl
        · simp [hne]

/-- The C10 theorem at a concrete input: subject `u1` acting, subject
`v1` observed. -/
theorem handlers_touch_only_invoker_witness :
    (handleVerify (fun _ => none) "u1" "a@kosen-ac.jp" (some (1, 2, 3, 4)) true).store
        "v1" = none ∧
      (handleCode (fun _ => none) "u1" "000000" true "role1").store "v1" = none :=
  handlers_touch_only_invoker (fun _ => none) "u1" "v1" "a@kosen-ac.jp" "000000"
    "role1" (some (1, 2, 3, 4)) true true (by decide)

/-- C4: domain validation — an email passes the validation performed by
Start iff splitting on `@` yields exactly two `@`-free parts and the
domain part equals `kosen-ac.jp` or extends it on the left of a dot
(ends with `.kosen-ac.jp`); moreover `handleVerify` answers the
invalid-email response exactly when this validation fails. The
validator is a pure Boolean function, so it has no side effects by
construction. -/
theorem domain_validation_spec (email : String) :
    (emailPassesValidation email = true ↔
      ∃ l d : List Char, email.data = l ++ '@' :: d ∧ '@' ∉ l ∧ '@' ∉ d ∧
        (d = "kosen-ac.jp".data ∨ ∃ pre, d = pre ++ ('.' :: "kosen-ac.jp".data))) ∧
    (∀ (st : Store) (u : String) (entropy : Option (Nat × Nat × Nat × Nat)) (eok : Bool),
      (handleVerify st u email entropy eok).response = Response.invalidEmail ↔
        emailPassesValidation email = false) := by
  constructor
  · unfold emailPassesValidation
    dsimp only
    constructor
    · intro h
      rw [Bool.and_eq_true] at h
      obtain ⟨hlen, hval⟩ := h
      have hlen' : (splitOnChar '@' email.data).length = 2 := by
        simpa using hlen
      obtain ⟨a, b, hp⟩ : ∃ a b, splitOnChar '@' email.data = [a, b] := by
        rcases hq : splitOnChar '@' email.data with _ | ⟨x, _ | ⟨y, _ | ⟨z, t⟩⟩⟩
        · rw [hq] at hlen'; simp at hlen'
        · rw [hq] at hlen'; simp at hlen'
        · exact ⟨x, y, rfl⟩
        · rw [hq] at hlen'; simp at hlen'
      obtain ⟨heq, hla, hlb⟩ := splitOnChar_eq_pair.mp hp
      refine ⟨a, b, heq, hla, hlb, ?_⟩
      rw [hp] at hval
      have hb : ([a, b].getD 1 []) = b := rfl
      rw [hb] at hval
      unfold isValidKosenEmail at hval
      simp only [Bool.or_eq_true, decide_eq_true_eq, List.isSuffixOf_iff_suffix] at hval
      rcases hval with h | h
      · exact Or.inl h
      · obtain ⟨t, ht⟩ := h
        exact Or.inr ⟨t, by rw [← ht]⟩
    · rintro ⟨l, d, heq, hl, hd, hdom⟩
      have hp : splitOnChar '@' email.data = [l, d] := splitOnChar_eq_pair.mpr ⟨heq, hl, hd⟩
      rw [hp]
      have hb : ([l, d].getD 1 []) = d := rfl
      rw [hb]
      unfold isValidKosenEmail
      simp only [List.length_cons, List.length_nil, Bool.and_eq_true, Bool.or_eq_true,
        decide_eq_true_eq, List.isSuffixOf_iff_suffix]
      refine ⟨by norm_num, ?_⟩
      rcases hdom with h | ⟨pre, hpre⟩
      · exact Or.inl h
      · exact Or.inr ⟨pre, by rw [hpre]⟩
  · intro st u entropy eok
    unfold handleVerify emailPassesValidation
    dsimp only
    rcases entropy with _ | ⟨b0, b1, b2, b3⟩ <;> dsimp only <;>
      by_cases hlen : (splitOnChar '@' email.data).length = 2 <;>
        cases hval : isValidKosenEmail ((splitOnChar '@' email.data).getD 1 []) <;>
          cases eok <;> simp [hlen, hval]

/-- The C4 theorem instantiated at a concrete email with no `@` sign:
Start reports the invalid-email error there. -/
theorem domain_validation_spec_witness :
    (handleVerify (fun _ => none) "u1" "nodomain" (some (1, 2, 3, 4)) true).response =
      Response.invalidEmail :=
  ((domain_validation_spec "nodomain").2 (fun _ => none) "u1" (some (1, 2, 3, 4)) true).mpr
    (by decide)

/-- C2 (spec-modelled): a Confirm that matches the stored credential,
with a successful base grant and a domain that has a role-map entry,
clears the record, grants both the base role and the mapped role, and
reports success — for either outcome of the mapped grant, in
particular when it fails. -/
theorem confirm_grants_mapped_role (st : RecordStore) (u cred email baseID mapped : String)
    (drm : List (String × String)) (mok : Bool)
    (hst : st u = some ⟨cred, email⟩)
    (hmap : drm.lookup (emailDomain email) = some mapped) :
    (handleCodeWithRoleMap st u cred drm baseID true mok).store u = none ∧
      Effect.roleGrant u baseID ∈ (handleCodeWithRoleMap st u cred drm baseID true mok).effects ∧
      Effect.roleGrant u mapped ∈ (handleCodeWithRoleMap st u cred drm baseID true mok).effects ∧
      (handleCodeWithRoleMap st u cred drm baseID true mok).response = .verified := by
  unfold handleCodeWithRoleMap
  rw [hst]
  dsimp only
  rw [if_neg (by simp), hmap]
  cases mok <;> simp

/-- The C2 theorem at a concrete input: record for `u1` with email
`alice@sub.kosen-ac.jp`, mapping `sub.kosen-ac.jp` to `role123`, and a
failing mapped grant. -/
theorem confirm_grants_mapped_role_witness :
    (handleCodeWithRoleMap
        (fun k => if k = "u1" then some ⟨"123456", "alice@sub.kosen-ac.jp"⟩ else none)
        "u1" "123456" [("sub.kosen-ac.jp", "role123")] "base" true false).store "u1" = none ∧
      Effect.roleGrant "u1" "role123" ∈
        (handleCodeWithRoleMap
          (fun k => if k = "u1" then some ⟨"123456", "alice@sub.kosen-ac.jp"⟩ else none)
          "u1" "123456" [("sub.kosen-ac.jp", "role123")] "base" true false).effects := by
  have h := confirm_grants_mapped_role
    (fun k => if k = "u1" then some ⟨"123456", "alice@sub.kosen-ac.jp"⟩ else none)
    "u1" "123456" "alice@sub.kosen-ac.jp" "base" "role123"
    [("sub.kosen-ac.jp", "role123")] false (by simp) (by decide)
  exact ⟨h.1, h.2.2.1⟩

end KosenVerify
